import Mathlib

/-!
Verification of the Coalesce impact-analysis action.

This file shallowly embeds the reconciliation and report-synthesis logic of
the action (the unnamed main module and yml-parser.js) and proves, or
refutes, the specified properties.  JavaScript strings are Lean Strings;
possibly-absent record fields are Option values; JS built-ins used by the
source (toLowerCase, trim, split, includes, endsWith, template-literal
stringification, Array.prototype.join) are modelled by explicit executable
functions over the character data of the string.
-/

/-- Modelled JS built-in: String.prototype.toLowerCase (per-character lowering). -/
def jsToLower (s : String) : String := String.mk (s.data.map Char.toLower)

/-- Whitespace test used by the modelled String.prototype.trim. -/
def isWsChar (c : Char) : Bool := c = ' ' || c = '\t' || c = '\n' || c = '\r'

/-- Modelled JS built-in: String.prototype.trim. -/
def jsTrim (s : String) : String :=
  String.mk (((s.data.dropWhile isWsChar).reverse.dropWhile isWsChar).reverse)

/-- Accumulator loop of the modelled String.prototype.split on a single character. -/
def splitAux (c : Char) : List Char → List Char → List String
  | [], acc => [String.mk acc.reverse]
  | x :: xs, acc =>
    if x = c then String.mk acc.reverse :: splitAux c xs []
    else splitAux c xs (x :: acc)

/-- Modelled JS built-in: String.prototype.split on a one-character separator. -/
def jsSplitOn (s : String) (c : Char) : List String := splitAux c s.data []

/-- Modelled JS built-in: s.includes(t), substring containment. -/
def jsIncludes (s t : String) : Bool := decide (t.data <:+: s.data)

/-- Modelled JS built-in: s.endsWith(t). -/
def jsEndsWith (s t : String) : Bool := decide (t.data <:+ s.data)

/-- Rendering of a possibly-absent string field inside a JS template literal:
an absent (undefined) field prints as the text "undefined". -/
def jsStr : Option String → String
  | none => "undefined"
  | some s => s

/-- JS truthiness of a possibly-absent string value: absent and empty are falsy. -/
def truthyStr : Option String → Bool
  | none => false
  | some s => s != ""

/-- Asset-level impact record returned by the lineage service
(fields as read by the source: name, connection_id, asset_name, asset_group,
redirect_id, is_transform). -/
structure ImpactRecord where
  name : Option String
  connection_id : Option String
  asset_name : Option String
  asset_group : Option String
  redirect_id : Option String
  is_transform : Bool
deriving Repr, DecidableEq

/-- Column-level impact record as assembled by getColumnLevelImpactAnalysis
(plus the is_transform field that constructColumnUrl reads, absent = false). -/
structure ColumnImpactRecord where
  table_name : Option String
  column_name : Option String
  column_id : Option String
  data_type : Option String
  table_id : Option String
  redirect_id : Option String
  entity : Option String
  connection_id : Option String
  asset_name : Option String
  flow : Option String
  depth : Option String
  impact_type : Option String
  asset_group : Option String
  is_transform : Bool
deriving Repr, DecidableEq

/-- Source line 571: uniqueKey joins name, connection_id and asset_name with "-". -/
def uniqueKey (item : ImpactRecord) : String :=
  jsStr item.name ++ "-" ++ jsStr item.connection_id ++ "-" ++ jsStr item.asset_name

/-- Source line 599: columnUniqueKey joins table_name, column_name and connection_id with "-". -/
def columnUniqueKey (item : ColumnImpactRecord) : String :=
  jsStr item.table_name ++ "-" ++ jsStr item.column_name ++ "-" ++ jsStr item.connection_id

/-- Loop of the seen-set filter shared by dedup (lines 583-591) and
columnDedup (lines 610-618): keep an element iff its key was not seen before. -/
def dedupByAux {α : Type} (key : α → String) : List String → List α → List α
  | _, [] => []
  | seen, x :: xs =>
    if key x ∈ seen then dedupByAux key seen xs
    else x :: dedupByAux key (key x :: seen) xs

/-- Seen-set deduplication by a string key, starting from the empty seen set. -/
def dedupBy {α : Type} (key : α → String) (arr : List α) : List α :=
  dedupByAux key [] arr

/-- Source lines 583-591: dedup for asset-level impact lists. -/
def dedup (arr : List ImpactRecord) : List ImpactRecord := dedupBy uniqueKey arr

/-- Source lines 610-618: columnDedup for column-level impact lists. -/
def columnDedup (arr : List ColumnImpactRecord) : List ColumnImpactRecord :=
  dedupBy columnUniqueKey arr

/-- Per-file accumulated asset impacts (the fileImpacts map values). -/
structure FileImpactSet where
  direct : List ImpactRecord
  indirect : List ImpactRecord
  taskName : String
deriving Repr, DecidableEq

/-- Per-file accumulated column impacts (the columnImpacts map values). -/
structure ColumnImpactSet where
  direct : List ColumnImpactRecord
  indirect : List ColumnImpactRecord
  taskName : String
  changedColumns : List String
deriving Repr, DecidableEq

/-- Source lines 574-580: remove from indirect every record whose uniqueKey is
already present among the direct records of the same file. -/
def applyDirectPrecedence (impacts : FileImpactSet) : FileImpactSet :=
  { impacts with
    indirect := impacts.indirect.filter
      (fun item => !((impacts.direct.map uniqueKey).contains (uniqueKey item))) }

/-- Source lines 593-596: dedup the direct and indirect asset lists of a file. -/
def dedupFileImpacts (impacts : FileImpactSet) : FileImpactSet :=
  { impacts with direct := dedup impacts.direct, indirect := dedup impacts.indirect }

/-- Asset-level reconciliation applied per file: precedence filter, then dedup. -/
def reconcileFileImpacts (impacts : FileImpactSet) : FileImpactSet :=
  dedupFileImpacts (applyDirectPrecedence impacts)

/-- Source lines 601-607: remove from indirect every column record whose
columnUniqueKey is already present among the direct columns of the file. -/
def applyColumnDirectPrecedence (impacts : ColumnImpactSet) : ColumnImpactSet :=
  { impacts with
    indirect := impacts.indirect.filter
      (fun item => !((impacts.direct.map columnUniqueKey).contains (columnUniqueKey item))) }

/-- Source lines 620-623: columnDedup the direct and indirect lists of a file. -/
def dedupColumnImpacts (impacts : ColumnImpactSet) : ColumnImpactSet :=
  { impacts with direct := columnDedup impacts.direct, indirect := columnDedup impacts.indirect }

/-- Column-level reconciliation applied per file: precedence filter, then dedup. -/
def reconcileColumnImpacts (impacts : ColumnImpactSet) : ColumnImpactSet :=
  dedupColumnImpacts (applyColumnDirectPrecedence impacts)

theorem mem_dedupByAux {α : Type} {key : α → String} {seen : List String}
    {l : List α} {y : α} (h : y ∈ dedupByAux key seen l) : y ∈ l ∧ key y ∉ seen := by
  induction l generalizing seen with
  | nil => simp [dedupByAux] at h
  | cons x xs ih =>
    by_cases hx : key x ∈ seen
    · simp only [dedupByAux, if_pos hx] at h
      obtain ⟨h1, h2⟩ := ih h
      exact ⟨List.mem_cons_of_mem _ h1, h2⟩
    · simp only [dedupByAux, if_neg hx] at h
      rcases List.mem_cons.mp h with rfl | h
      · exact ⟨List.mem_cons_self _ _, hx⟩
      · obtain ⟨h1, h2⟩ := ih h
        refine ⟨List.mem_cons_of_mem _ h1, fun hc => h2 ?_⟩
        exact List.mem_cons_of_mem _ hc

theorem nodup_keys_dedupByAux {α : Type} (key : α → String) (seen : List String)
    (l : List α) : ((dedupByAux key seen l).map key).Nodup := by
  induction l generalizing seen with
  | nil => simp [dedupByAux]
  | cons x xs ih =>
    by_cases hx : key x ∈ seen
    · simpa [dedupByAux, if_pos hx] using ih seen
    · simp only [dedupByAux, if_neg hx, List.map_cons, List.nodup_cons]
      refine ⟨fun hc => ?_, ih _⟩
      obtain ⟨y, hy, hky⟩ := List.mem_map.mp hc
      exact (mem_dedupByAux hy).2 (hky ▸ List.mem_cons_self _ _)

theorem dedupByAux_eq_self {α : Type} {key : α → String} {seen : List String}
    {l : List α} (h1 : ∀ x ∈ l, key x ∉ seen) (h2 : (l.map key).Nodup) :
    dedupByAux key seen l = l := by
  induction l generalizing seen with
  | nil => simp [dedupByAux]
  | cons x xs ih =>
    have hx : key x ∉ seen := h1 x (List.mem_cons_self _ _)
    simp only [dedupByAux, if_neg hx]
    simp only [List.map_cons, List.nodup_cons] at h2
    refine congrArg (x :: ·) (ih ?_ h2.2)
    intro y hy hc
    rcases List.mem_cons.mp hc with hkey | hmem
    · exact h2.1 (hkey ▸ List.mem_map_of_mem key hy)
    · exact h1 y (List.mem_cons_of_mem _ hy) hmem

theorem dedupBy_idem {α : Type} (key : α → String) (l : List α) :
    dedupBy key (dedupBy key l) = dedupBy key l :=
  dedupByAux_eq_self (fun _ _ h => (List.not_mem_nil _ h).elim)
    (nodup_keys_dedupByAux key [] l)

theorem disjoint_dedup_filter {α : Type} (key : α → String) (direct indirect : List α) :
    ((dedupBy key direct).map key).Disjoint
      ((dedupBy key (indirect.filter
        (fun item => !((direct.map key).contains (key item))))).map key) := by
  intro a ha hb
  obtain ⟨x, hx, hax⟩ := List.mem_map.mp ha
  obtain ⟨y, hy, hay⟩ := List.mem_map.mp hb
  have hxd : x ∈ direct := (mem_dedupByAux hx).1
  have hyf := (mem_dedupByAux hy).1
  have hkey := (List.mem_filter.mp hyf).2
  simp only [List.contains] at hkey
  simp at hkey
  have hk : key y = key x := hay.trans hax.symm
  exact hkey x hxd hk.symm

/-- C1: after reconciliation, for every changed file the direct and indirect
impact sets (asset-level and column-level) are disjoint by identity key, and
each set is internally unique by identity key. -/
theorem reconciliation_disjoint_and_unique :
    (∀ impacts : FileImpactSet,
      ((reconcileFileImpacts impacts).direct.map uniqueKey).Disjoint
        ((reconcileFileImpacts impacts).indirect.map uniqueKey) ∧
      ((reconcileFileImpacts impacts).direct.map uniqueKey).Nodup ∧
      ((reconcileFileImpacts impacts).indirect.map uniqueKey).Nodup) ∧
    (∀ impacts : ColumnImpactSet,
      ((reconcileColumnImpacts impacts).direct.map columnUniqueKey).Disjoint
        ((reconcileColumnImpacts impacts).indirect.map columnUniqueKey) ∧
      ((reconcileColumnImpacts impacts).direct.map columnUniqueKey).Nodup ∧
      ((reconcileColumnImpacts impacts).indirect.map columnUniqueKey).Nodup) := by
  constructor
  · intro impacts
    refine ⟨disjoint_dedup_filter uniqueKey impacts.direct impacts.indirect, ?_, ?_⟩
    · exact nodup_keys_dedupByAux uniqueKey [] _
    · exact nodup_keys_dedupByAux uniqueKey [] _
  · intro impacts
    refine ⟨disjoint_dedup_filter columnUniqueKey impacts.direct impacts.indirect, ?_, ?_⟩
    · exact nodup_keys_dedupByAux columnUniqueKey [] _
    · exact nodup_keys_dedupByAux columnUniqueKey [] _

/-- Concrete reconciliation input used to witness the claim C1 theorem. -/
def sampleImpact (n c a : String) : ImpactRecord :=
  { name := some n, connection_id := some c, asset_name := some a,
    asset_group := some "pipeline", redirect_id := some "7", is_transform := false }

/-- Witness for C1: the reconciliation invariant evaluated on a concrete file
impact set with an overlapping record in both buckets. -/
theorem reconciliation_disjoint_and_unique_witness :
    ((reconcileFileImpacts ⟨[sampleImpact "A" "1" "A"],
        [sampleImpact "A" "1" "A", sampleImpact "B" "1" "B"], "t"⟩).direct.map uniqueKey).Disjoint
      ((reconcileFileImpacts ⟨[sampleImpact "A" "1" "A"],
        [sampleImpact "A" "1" "A", sampleImpact "B" "1" "B"], "t"⟩).indirect.map uniqueKey) :=
  (reconciliation_disjoint_and_unique.1
    ⟨[sampleImpact "A" "1" "A"], [sampleImpact "A" "1" "A", sampleImpact "B" "1" "B"], "t"⟩).1

/-- C8: deduplication by identity key is idempotent for both the asset-level
and the column-level impact lists. -/
theorem dedup_idempotent :
    (∀ arr : List ImpactRecord, dedup (dedup arr) = dedup arr) ∧
    (∀ arr : List ColumnImpactRecord, columnDedup (columnDedup arr) = columnDedup arr) :=
  ⟨fun arr => dedupBy_idem uniqueKey arr, fun arr => dedupBy_idem columnUniqueKey arr⟩

/-- First asset record of the colliding pair: tuple ("a-b", "1", "c"). -/
def collideAsset1 : ImpactRecord :=
  { name := some "a-b", connection_id := some "1", asset_name := some "c",
    asset_group := none, redirect_id := none, is_transform := false }

/-- Second asset record of the colliding pair: tuple ("a", "b-1", "c"). -/
def collideAsset2 : ImpactRecord :=
  { name := some "a", connection_id := some "b-1", asset_name := some "c",
    asset_group := none, redirect_id := none, is_transform := false }

/-- First column record of the colliding pair: tuple ("t-a", "b", "c"). -/
def collideColumn1 : ColumnImpactRecord :=
  { table_name := some "t-a", column_name := some "b", connection_id := some "c",
    column_id := none, data_type := none, table_id := none, redirect_id := none,
    entity := none, asset_name := none, flow := none, depth := none,
    impact_type := none, asset_group := none, is_transform := false }

/-- Second column record of the colliding pair: tuple ("t", "a-b", "c"). -/
def collideColumn2 : ColumnImpactRecord :=
  { table_name := some "t", column_name := some "a-b", connection_id := some "c",
    column_id := none, data_type := none, table_id := none, redirect_id := none,
    entity := none, asset_name := none, flow := none, depth := none,
    impact_type := none, asset_group := none, is_transform := false }

/-- C9: the identity key joins its fields with "-", so records with distinct
key tuples can share a key; dedup keeps only the first of such a pair and the
direct-over-indirect precedence filter drops the second as a duplicate. -/
theorem uniqueKey_join_collision :
    ((collideAsset1.name, collideAsset1.connection_id, collideAsset1.asset_name) ≠
       (collideAsset2.name, collideAsset2.connection_id, collideAsset2.asset_name) ∧
     uniqueKey collideAsset1 = uniqueKey collideAsset2 ∧
     dedup [collideAsset1, collideAsset2] = [collideAsset1] ∧
     (applyDirectPrecedence ⟨[collideAsset1], [collideAsset2], "t"⟩).indirect = []) ∧
    ((collideColumn1.table_name, collideColumn1.column_name, collideColumn1.connection_id) ≠
       (collideColumn2.table_name, collideColumn2.column_name, collideColumn2.connection_id) ∧
     columnUniqueKey collideColumn1 = columnUniqueKey collideColumn2 ∧
     columnDedup [collideColumn1, collideColumn2] = [collideColumn1] ∧
     (applyColumnDirectPrecedence ⟨[collideColumn1], [collideColumn2], "t", []⟩).indirect = []) := by
  refine ⟨⟨?_, ?_, ?_, ?_⟩, ⟨?_, ?_, ?_, ?_⟩⟩ <;> decide

/-- Display flags controlling which report sub-sections render. -/
structure OutputOptions where
  showDirectColumnCount : Bool
  showIndirectColumnCount : Bool
  showDirectAssetCount : Bool
  showIndirectAssetCount : Bool
  showDirectColumnList : Bool
  showIndirectColumnList : Bool
  showDirectAssetList : Bool
  showIndirectAssetList : Bool
  showYmlColumnChanges : Bool
deriving Repr, DecidableEq

/-- Source lines 28-56: parseConfigurableKeys.  An absent or empty (falsy)
input yields the all-true record; otherwise the input is split on commas,
trimmed and lower-cased, and each flag is set iff its key is present. -/
def parseConfigurableKeys (keysString : Option String) : OutputOptions :=
  match keysString with
  | none =>
    { showDirectColumnCount := true, showIndirectColumnCount := true,
      showDirectAssetCount := true, showIndirectAssetCount := true,
      showDirectColumnList := true, showIndirectColumnList := true,
      showDirectAssetList := true, showIndirectAssetList := true,
      showYmlColumnChanges := true }
  | some s =>
    if s = "" then
      { showDirectColumnCount := true, showIndirectColumnCount := true,
        showDirectAssetCount := true, showIndirectAssetCount := true,
        showDirectColumnList := true, showIndirectColumnList := true,
        showDirectAssetList := true, showIndirectAssetList := true,
        showYmlColumnChanges := true }
    else
      let keys := (jsSplitOn s ',').map (fun k => jsToLower (jsTrim k))
      { showDirectColumnCount := keys.contains "direct_column_count",
        showIndirectColumnCount := keys.contains "indirect_column_count",
        showDirectAssetCount := keys.contains "direct_asset_count",
        showIndirectAssetCount := keys.contains "indirect_asset_count",
        showDirectColumnList := keys.contains "direct_column_list",
        showIndirectColumnList := keys.contains "indirect_column_list",
        showDirectAssetList := keys.contains "direct_asset_list",
        showIndirectAssetList := keys.contains "indirect_asset_list",
        showYmlColumnChanges := keys.contains "yml_column_changes" }

/-- Spec-side record with every display flag enabled. -/
def allOptionsEnabled : OutputOptions :=
  ⟨true, true, true, true, true, true, true, true, true⟩

/-- Spec-side record with every display flag disabled. -/
def allOptionsDisabled : OutputOptions :=
  ⟨false, false, false, false, false, false, false, false, false⟩

/-- Option keys recognized by parseConfigurableKeys. -/
def recognizedKeys : List String :=
  ["direct_column_count", "indirect_column_count", "direct_asset_count",
   "indirect_asset_count", "direct_column_list", "indirect_column_list",
   "direct_asset_list", "indirect_asset_list", "yml_column_changes"]

/-- Counterexample to C3: the input "foo" contains no recognized option key,
yet parseConfigurableKeys disables every flag instead of enabling them all. -/
theorem parseConfigurableKeys_unrecognized_counterexample :
    ((jsSplitOn "foo" ',').map (fun k => jsToLower (jsTrim k))).all
      (fun k => !(recognizedKeys.contains k)) = true ∧
    parseConfigurableKeys (some "foo") = allOptionsDisabled ∧
    allOptionsDisabled ≠ allOptionsEnabled := by
  refine ⟨?_, ?_, ?_⟩ <;> decide

/-- C3 amended: an absent or empty configurable-keys input enables all flags;
a non-empty input enables each flag iff its own key appears in the trimmed
lower-cased comma-separated list, so a non-empty input containing no
recognized option key disables every flag instead of enabling them all. -/
theorem parseConfigurableKeys_amended :
    parseConfigurableKeys none = allOptionsEnabled ∧
    parseConfigurableKeys (some "") = allOptionsEnabled ∧
    (∀ s : String, s ≠ "" →
      (((parseConfigurableKeys (some s)).showDirectColumnCount = true ↔
         "direct_column_count" ∈ (jsSplitOn s ',').map (fun k => jsToLower (jsTrim k))) ∧
       ((parseConfigurableKeys (some s)).showIndirectColumnCount = true ↔
         "indirect_column_count" ∈ (jsSplitOn s ',').map (fun k => jsToLower (jsTrim k))) ∧
       ((parseConfigurableKeys (some s)).showDirectAssetCount = true ↔
         "direct_asset_count" ∈ (jsSplitOn s ',').map (fun k => jsToLower (jsTrim k))) ∧
       ((parseConfigurableKeys (some s)).showIndirectAssetCount = true ↔
         "indirect_asset_count" ∈ (jsSplitOn s ',').map (fun k => jsToLower (jsTrim k))) ∧
       ((parseConfigurableKeys (some s)).showDirectColumnList = true ↔
         "direct_column_list" ∈ (jsSplitOn s ',').map (fun k => jsToLower (jsTrim k))) ∧
       ((parseConfigurableKeys (some s)).showIndirectColumnList = true ↔
         "indirect_column_list" ∈ (jsSplitOn s ',').map (fun k => jsToLower (jsTrim k))) ∧
       ((parseConfigurableKeys (some s)).showDirectAssetList = true ↔
         "direct_asset_list" ∈ (jsSplitOn s ',').map (fun k => jsToLower (jsTrim k))) ∧
       ((parseConfigurableKeys (some s)).showIndirectAssetList = true ↔
         "indirect_asset_list" ∈ (jsSplitOn s ',').map (fun k => jsToLower (jsTrim k))) ∧
       ((parseConfigurableKeys (some s)).showYmlColumnChanges = true ↔
         "yml_column_changes" ∈ (jsSplitOn s ',').map (fun k => jsToLower (jsTrim k))))) ∧
    (∀ s : String, s ≠ "" →
      (∀ k ∈ (jsSplitOn s ',').map (fun k => jsToLower (jsTrim k)), k ∉ recognizedKeys) →
      parseConfigurableKeys (some s) = allOptionsDisabled) := by
  refine ⟨by decide, by decide, ?_, ?_⟩
  · intro s hs
    simp only [parseConfigurableKeys, if_neg hs]
    refine ⟨?_, ?_, ?_, ?_, ?_, ?_, ?_, ?_, ?_⟩ <;> exact List.elem_iff
  · intro s hs h
    have hc : ∀ k0, k0 ∈ recognizedKeys →
        ((jsSplitOn s ',').map (fun k => jsToLower (jsTrim k))).contains k0 = false := by
      intro k0 hk0
      cases hcc : ((jsSplitOn s ',').map (fun k => jsToLower (jsTrim k))).contains k0 with
      | false => rfl
      | true =>
        have hmem : k0 ∈ (jsSplitOn s ',').map (fun k => jsToLower (jsTrim k)) := by
          simpa [List.contains] using hcc
        exact absurd hk0 (h k0 hmem)
    simp only [parseConfigurableKeys, if_neg hs, allOptionsDisabled, OutputOptions.mk.injEq]
    exact ⟨hc _ (by decide), hc _ (by decide), hc _ (by decide), hc _ (by decide),
           hc _ (by decide), hc _ (by decide), hc _ (by decide), hc _ (by decide),
           hc _ (by decide)⟩

/-- Witness for the amended C3 theorem: the unrecognized input "foo" disables
every flag, and the input direct_asset_count enables its own flag. -/
theorem parseConfigurableKeys_amended_witness :
    parseConfigurableKeys (some "foo") = allOptionsDisabled ∧
    (parseConfigurableKeys (some "direct_asset_count")).showDirectAssetCount = true := by
  constructor
  · exact parseConfigurableKeys_amended.2.2.2 "foo" (by decide) (by decide)
  · exact ((parseConfigurableKeys_amended.2.2.1 "direct_asset_count"
      (by decide)).2.2.1).mpr (by decide)

/-- Quote characters removed by the matcher: backtick, double quote, single quote. -/
def isQuoteChar (c : Char) : Bool := c = Char.ofNat 96 || c = '"' || c = Char.ofNat 39

/-- Modelled JS replace of every quote character by the empty string. -/
def stripQuotes (s : String) : String :=
  String.mk (s.data.filter (fun c => !(isQuoteChar c)))

/-- Source lines 204-222: the per-pair column matcher inside
getColumnLevelImpactAnalysis.  A falsy field name lowers to the empty string;
the changed column is lower-cased; then exact match, substring match in either
direction, and finally exact match of the quote-stripped names. -/
def matchesChangedColumn (fieldName : Option String) (changedCol : String) : Bool :=
  let f := match fieldName with
    | some s => if s != "" then jsToLower s else ""
    | none => ""
  let c := jsToLower changedCol
  if f = c then true
  else if jsIncludes f c || jsIncludes c f then true
  else if stripQuotes f = stripQuotes c then true
  else false

/-- Spec-side relevance rule exactly as claim C2 states it: lower-case both
names, strip quotes from both, then require equality or substring containment
in either direction. -/
def relevantPerClaim (fieldName changedCol : String) : Bool :=
  let f := stripQuotes (jsToLower fieldName)
  let c := stripQuotes (jsToLower changedCol)
  f = c || jsIncludes f c || jsIncludes c f

/-- Counterexample to C2: for field name "ab" wrapped in double quotes against
changed column abc, the claimed rule (strip quotes, then substring) says
relevant, but the source only applies the substring test before stripping and
reports not relevant. -/
theorem matchesChangedColumn_counterexample :
    relevantPerClaim "\"ab\"" "abc" = true ∧
    matchesChangedColumn (some "\"ab\"") "abc" = false := by
  refine ⟨?_, ?_⟩ <;> decide

/-- C2 amended: a field is relevant to a changed column iff, after
lower-casing, the names are equal, or one contains the other as a substring,
or the quote-stripped lower-cased names are exactly equal; substring matching
is not re-applied after quote stripping.  The claimed case/quoting examples
still match. -/
theorem matchesChangedColumn_amended :
    (∀ (fieldName : Option String) (changedCol : String),
      matchesChangedColumn fieldName changedCol = true ↔
        (jsToLower (fieldName.getD "") = jsToLower changedCol ∨
         (jsToLower changedCol).data <:+: (jsToLower (fieldName.getD "")).data ∨
         (jsToLower (fieldName.getD "")).data <:+: (jsToLower changedCol).data ∨
         stripQuotes (jsToLower (fieldName.getD "")) =
           stripQuotes (jsToLower changedCol))) ∧
    matchesChangedColumn (some "\"Order_ID\"") "order_id" = true ∧
    matchesChangedColumn (some "\x60amount\x60") "Amount" = true := by
  refine ⟨?_, by decide, by decide⟩
  intro fieldName changedCol
  have hf : (match fieldName with
      | some s => if s != "" then jsToLower s else ""
      | none => "") = jsToLower (fieldName.getD "") := by
    cases fieldName with
    | none => rfl
    | some s =>
      by_cases hs : s = ""
      · subst hs; rfl
      · simp [hs]
  simp only [matchesChangedColumn, hf]
  constructor
  · intro h
    split_ifs at h with h1 h2 h3
    · exact Or.inl h1
    · rcases Bool.or_eq_true_iff.mp h2 with hx | hx
      · exact Or.inr (Or.inl (by simpa [jsIncludes] using hx))
      · exact Or.inr (Or.inr (Or.inl (by simpa [jsIncludes] using hx)))
    · exact Or.inr (Or.inr (Or.inr h3))
  · intro h
    split_ifs with h1 h2 h3
    · rfl
    · rfl
    · rfl
    · exfalso
      rcases h with h | h | h | h
      · exact h1 h
      · exact h2 (by simp [jsIncludes, h])
      · exact h2 (by simp [jsIncludes, h])
      · exact h3 h

/-- Pipeline task record from the task-listing service (fields the source reads). -/
structure PipelineTask where
  name : Option String
  asset_id : Option String
  connection_id : Option String
  task_id : Option String
  connection_type : Option String
deriving Repr, DecidableEq

/-- Matched task: the task extended with entity = task_id and the originating file. -/
structure MatchedTask where
  task : PipelineTask
  entity : String
  filePath : Option String
deriving Repr, DecidableEq

/-- Source lines 406-409: keep tasks whose lower-cased connection_type equals
or contains the Coalesce connector tag. -/
def coalesceTaskFilter (tasks : List PipelineTask) : List PipelineTask :=
  tasks.filter (fun task =>
    let connType := jsToLower (task.connection_type.getD "")
    connType == "coalesce_pipeline" || jsIncludes connType "coalesce_pipeline")

/-- Source lines 419-435: matchedTasks.  Filter the connector-filtered tasks to
those whose lower-cased name equals some lower-cased changed model name, attach
entity and the originating file path (null when the found model is falsy, as
in matchingModel ? map[matchingModel] : null), and drop tasks without a
truthy path. -/
def matchedTasks (coalesceTasks : List PipelineTask) (changedModels : List String)
    (modelNameToFileMap : String → Option String) : List MatchedTask :=
  ((coalesceTasks.filter (fun task =>
      let taskName := jsToLower (task.name.getD "")
      changedModels.any (fun model => jsToLower model == taskName))).map
    (fun task =>
      let matchingModel := changedModels.find? (fun model =>
        jsToLower model == jsToLower (task.name.getD ""))
      { task := task, entity := task.task_id.getD "",
        filePath := match matchingModel with
          | some m => if m != "" then modelNameToFileMap m else none
          | none => none })).filter
    (fun t => truthyStr t.filePath)

/-- C7: provided every changed model name is non-empty and resolves to a
truthy file path (both guaranteed by the caller), a connector-filtered task is
matched iff its lower-cased name exactly equals the lower-cased name of some
changed model. -/
theorem matchedTasks_exact_case_insensitive
    (cts : List PipelineTask) (changedModels : List String)
    (modelMap : String → Option String)
    (hne : ∀ m ∈ changedModels, m ≠ "")
    (hmap : ∀ m ∈ changedModels, truthyStr (modelMap m) = true)
    (t : PipelineTask) :
    (∃ mt ∈ matchedTasks cts changedModels modelMap, mt.task = t) ↔
      (t ∈ cts ∧ ∃ m ∈ changedModels, jsToLower m = jsToLower (t.name.getD "")) := by
  constructor
  · rintro ⟨mt, hmt, rfl⟩
    have hmt' := (List.mem_filter.mp hmt).1
    obtain ⟨task, htask, rfl⟩ := List.mem_map.mp hmt'
    have h1 := (List.mem_filter.mp htask).1
    have h2 := (List.mem_filter.mp htask).2
    simp only [List.any_eq_true, beq_iff_eq] at h2
    obtain ⟨m, hm, hmeq⟩ := h2
    exact ⟨h1, m, hm, hmeq⟩
  · rintro ⟨hmem, m, hm, hmeq⟩
    have hpred : (changedModels.any
        (fun model => jsToLower model == jsToLower (t.name.getD ""))) = true := by
      simp only [List.any_eq_true, beq_iff_eq]
      exact ⟨m, hm, hmeq⟩
    have hfil : t ∈ cts.filter (fun task =>
        let taskName := jsToLower (task.name.getD "")
        changedModels.any (fun model => jsToLower model == taskName)) :=
      List.mem_filter.mpr ⟨hmem, hpred⟩
    have hfind : ∃ m0, changedModels.find?
        (fun model => jsToLower model == jsToLower (t.name.getD "")) = some m0 := by
      cases hcase : changedModels.find?
          (fun model => jsToLower model == jsToLower (t.name.getD "")) with
      | some m0 => exact ⟨m0, rfl⟩
      | none =>
        have := List.find?_eq_none.mp hcase m hm
        simp only [beq_iff_eq] at this
        exact absurd hmeq this
    obtain ⟨m0, hm0⟩ := hfind
    have hm0mem : m0 ∈ changedModels := List.mem_of_find?_eq_some hm0
    have hm0ne : m0 ≠ "" := hne m0 hm0mem
    refine ⟨{ task := t, entity := t.task_id.getD "",
              filePath := modelMap m0 }, ?_, rfl⟩
    refine List.mem_filter.mpr ⟨List.mem_map.mpr ⟨t, hfil, ?_⟩, hmap m0 hm0mem⟩
    simp [hm0, hm0ne]

/-- Concrete task fixture with a given name. -/
def mkTask (n : String) : PipelineTask :=
  { name := some n, asset_id := some "a1", connection_id := some "c1",
    task_id := some "t1", connection_type := some "coalesce_pipeline" }

/-- Witness for C7: with changed model Orders, the task named orders is
matched while the task named orders_staging is not. -/
theorem matchedTasks_exact_case_insensitive_witness :
    (∃ mt ∈ matchedTasks [mkTask "orders", mkTask "orders_staging"] ["Orders"]
        (fun m => if m == "Orders" then some "models/orders.yml" else none),
      mt.task = mkTask "orders") ∧
    ¬(∃ mt ∈ matchedTasks [mkTask "orders", mkTask "orders_staging"] ["Orders"]
        (fun m => if m == "Orders" then some "models/orders.yml" else none),
      mt.task = mkTask "orders_staging") := by
  constructor
  · exact (matchedTasks_exact_case_insensitive
      [mkTask "orders", mkTask "orders_staging"] ["Orders"]
      (fun m => if m == "Orders" then some "models/orders.yml" else none)
      (by decide) (by decide) (mkTask "orders")).mpr
      ⟨by decide, "Orders", by decide, by decide⟩
  · intro hex
    have h := (matchedTasks_exact_case_insensitive
      [mkTask "orders", mkTask "orders_staging"] ["Orders"]
      (fun m => if m == "Orders" then some "models/orders.yml" else none)
      (by decide) (by decide) (mkTask "orders_staging")).mp hex
    have h2 := h.2
    revert h2
    decide

/-- Column record as consumed by the delta computation (name is the identity). -/
structure ColRec where
  name : String
deriving Repr, DecidableEq

/-- Changed-column entry attributed to its originating file. -/
structure ChangedColumnEntry where
  column : String
  file : String
deriving Repr, DecidableEq

/-- Accumulated added/removed/modified changed columns (modified is unused). -/
structure ChangedColumns where
  added : List ChangedColumnEntry
  removed : List ChangedColumnEntry
  modified : List ChangedColumnEntry
deriving Repr, DecidableEq

/-- Source lines 276-306: loop body of extractChangedColumns for one yml file.
A falsy head content skips the file (none); a falsy base content yields an
empty before-column list; added and removed are the set differences by name. -/
def processYmlFileDelta (extractor : String → List ColRec)
    (baseContent headContent : Option String) : Option (List ColRec × List ColRec) :=
  if truthyStr headContent = false then none
  else
    let baseCols := if truthyStr baseContent then extractor (baseContent.getD "") else []
    let headCols := extractor (headContent.getD "")
    let baseColNames := baseCols.map (fun col => col.name)
    let headColNames := headCols.map (fun col => col.name)
    some (headCols.filter (fun col => !(baseColNames.contains col.name)),
          baseCols.filter (fun col => !(headColNames.contains col.name)))

/-- Source lines 258-315: extractChangedColumns over the changed-file list,
accumulating per-file added/removed entries tagged with the file path. -/
def extractChangedColumns (extractor : String → List ColRec)
    (baseContentOf headContentOf : String → Option String)
    (changedFiles : List String) : ChangedColumns :=
  (changedFiles.filter (fun f => jsEndsWith f ".yml")).foldl
    (fun acc file =>
      match processYmlFileDelta extractor (baseContentOf file) (headContentOf file) with
      | none => acc
      | some (addedCols, removedCols) =>
        { acc with
          added := acc.added ++ addedCols.map (fun col => ⟨col.name, file⟩),
          removed := acc.removed ++ removedCols.map (fun col => ⟨col.name, file⟩) })
    ⟨[], [], []⟩

/-- Spec-side before-column list: empty when the before content is falsy. -/
def baseColsOf (extractor : String → List ColRec) (baseContent : Option String) :
    List ColRec :=
  match baseContent with
  | none => []
  | some s => if s = "" then [] else extractor s

/-- Concrete extractor used in the C6 scenario: before-columns id and total,
after-columns id, total and tax. -/
def scenarioExtractor : String → List ColRec := fun s =>
  if s = "before" then [⟨"id"⟩, ⟨"total"⟩]
  else if s = "after" then [⟨"id"⟩, ⟨"total"⟩, ⟨"tax"⟩]
  else []

theorem baseColsOf_eq (e : String → List ColRec) (b : Option String) :
    (if truthyStr b then e (b.getD "") else []) = baseColsOf e b := by
  cases b with
  | none => rfl
  | some s =>
    by_cases hs : s = ""
    · subst hs; rfl
    · simp [truthyStr, baseColsOf, hs]

theorem processYmlFileDelta_some (e : String → List ColRec) (b : Option String)
    (hc : String) (hs : hc ≠ "") :
    processYmlFileDelta e b (some hc) =
      some ((e hc).filter
              (fun col => !(((baseColsOf e b).map (fun c => c.name)).contains col.name)),
            (baseColsOf e b).filter
              (fun col => !(((e hc).map (fun c => c.name)).contains col.name))) := by
  have ht : truthyStr (some hc) = true := by simp [truthyStr, hs]
  simp only [processYmlFileDelta, ht, Option.getD_some, baseColsOf_eq]
  rw [if_neg (by simp)]

/-- C6: the per-file column delta: a file with falsy after content is skipped;
otherwise added are the after-columns whose name is absent from the
before-name set and removed the before-columns whose name is absent from the
after-name set; with absent before content every after-column is added; and
the orders.yml scenario yields added tax, removed nothing. -/
theorem processYmlFileDelta_spec :
    (∀ (e : String → List ColRec) (b h : Option String),
      (processYmlFileDelta e b h = none ↔ (h = none ∨ h = some ""))) ∧
    (∀ (e : String → List ColRec) (b : Option String) (hc : String)
       (added removed : List ColRec),
      processYmlFileDelta e b (some hc) = some (added, removed) →
      (∀ col, col ∈ added ↔
        (col ∈ e hc ∧ col.name ∉ (baseColsOf e b).map (fun c => c.name))) ∧
      (∀ col, col ∈ removed ↔
        (col ∈ baseColsOf e b ∧ col.name ∉ (e hc).map (fun c => c.name)))) ∧
    (∀ (e : String → List ColRec) (hc : String), hc ≠ "" →
      processYmlFileDelta e none (some hc) = some (e hc, [])) ∧
    processYmlFileDelta scenarioExtractor (some "before") (some "after") =
      some ([⟨"tax"⟩], []) := by
  refine ⟨?_, ?_, ?_, by decide⟩
  · intro e b h
    cases h with
    | none => simp [processYmlFileDelta, truthyStr]
    | some s =>
      by_cases hs : s = ""
      · subst hs; simp [processYmlFileDelta, truthyStr]
      · rw [processYmlFileDelta_some e b s hs]
        simp [hs]
  · intro e b hc added removed hdelta
    by_cases hs : hc = ""
    · subst hs; simp [processYmlFileDelta, truthyStr] at hdelta
    · rw [processYmlFileDelta_some e b hc hs] at hdelta
      rw [Option.some_inj, Prod.mk.injEq] at hdelta
      obtain ⟨ha, hr⟩ := hdelta
      subst ha
      subst hr
      constructor
      · intro col
        simp [List.mem_filter, List.contains]
      · intro col
        simp [List.mem_filter, List.contains]
  · intro e hc hne
    rw [processYmlFileDelta_some e none hc hne]
    simp [baseColsOf, List.filter_eq_self]

/-- Witness for C6: the delta of a newly added file (no before content) with
after-columns id, total and tax reports every after-column as added. -/
theorem processYmlFileDelta_spec_witness :
    processYmlFileDelta scenarioExtractor none (some "after") =
      some (scenarioExtractor "after", []) :=
  processYmlFileDelta_spec.2.2.1 scenarioExtractor "after" (by decide)

/-- Parsed base URL as produced by the JS URL constructor.  Only the origin
(the serialization up to the path, reproduced by toString after the pathname
is replaced) is modelled; a parse result of none models the constructor
throwing on a malformed base. -/
structure Url where
  origin : String
deriving Repr, DecidableEq

/-- Source lines 625-664: constructItemUrl.  Placeholder for a falsy item or
base URL, a throwing URL constructor, or a record missing connection_id or
redirect_id; otherwise routes on asset_group. -/
def constructItemUrl (parseUrl : String → Option Url)
    (item : Option ImpactRecord) (baseUrl : Option String) : String :=
  match item with
  | none => "#"
  | some it =>
    if truthyStr baseUrl = false then "#"
    else
      match parseUrl (baseUrl.getD "") with
      | none => "#"
      | some url =>
        if truthyStr it.connection_id = false || truthyStr it.redirect_id = false then "#"
        else if it.asset_group = some "pipeline" then
          if it.is_transform then
            url.origin ++ "/observe/pipeline/transformation/" ++ jsStr it.redirect_id ++ "/run"
          else
            url.origin ++ "/observe/pipeline/task/" ++ jsStr it.redirect_id ++ "/run"
        else if it.asset_group = some "report" then
          url.origin ++ "/observe/report/worksheet/" ++ jsStr it.redirect_id ++ "/overview"
        else if it.asset_group = some "data" then
          url.origin ++ "/observe/data/" ++ jsStr it.redirect_id ++ "/measures"
        else "#"

/-- Source lines 667-706: constructColumnUrl.  Routes pipeline and data groups
before any id check; then falls back to the placeholder when connection_id or
redirect_id is missing, and to the pipeline task template otherwise. -/
def constructColumnUrl (parseUrl : String → Option Url)
    (columnItem : Option ColumnImpactRecord) (baseUrl : Option String) : String :=
  match columnItem with
  | none => "#"
  | some it =>
    if truthyStr baseUrl = false then "#"
    else
      match parseUrl (baseUrl.getD "") with
      | none => "#"
      | some url =>
        if it.asset_group = some "pipeline" then
          if it.is_transform then
            url.origin ++ "/observe/pipeline/transformation/" ++ jsStr it.redirect_id ++ "/run"
          else
            url.origin ++ "/observe/pipeline/task/" ++ jsStr it.redirect_id ++ "/run"
        else if it.asset_group = some "data" then
          url.origin ++ "/observe/data/" ++ jsStr it.redirect_id ++ "/measures"
        else if truthyStr it.connection_id = false || truthyStr it.redirect_id = false then "#"
        else if truthyStr it.redirect_id then
          url.origin ++ "/observe/pipeline/task/" ++ jsStr it.redirect_id ++ "/run"
        else "#"

/-- Fixed asset-group routing table shared by the claim-side and amended
resolvers: pipeline transformation or task, report worksheet, data measures,
and the placeholder for any other group. -/
def assetRouteTemplate (it : ImpactRecord) (origin : String) : String :=
  if it.asset_group = some "pipeline" then
    if it.is_transform then
      origin ++ "/observe/pipeline/transformation/" ++ jsStr it.redirect_id ++ "/run"
    else
      origin ++ "/observe/pipeline/task/" ++ jsStr it.redirect_id ++ "/run"
  else if it.asset_group = some "report" then
    origin ++ "/observe/report/worksheet/" ++ jsStr it.redirect_id ++ "/overview"
  else if it.asset_group = some "data" then
    origin ++ "/observe/data/" ++ jsStr it.redirect_id ++ "/measures"
  else "#"

/-- Asset-level resolver exactly as claim C4 states it: the placeholder only
when the record lacks both connection_id and redirect_id. -/
def itemUrlPerClaim (parseUrl : String → Option Url)
    (item : Option ImpactRecord) (baseUrl : Option String) : String :=
  match item with
  | none => "#"
  | some it =>
    if truthyStr baseUrl = false then "#"
    else
      match parseUrl (baseUrl.getD "") with
      | none => "#"
      | some url =>
        if truthyStr it.connection_id = false && truthyStr it.redirect_id = false then "#"
        else assetRouteTemplate it url.origin

/-- Amended asset-level resolver: the placeholder when the record lacks
connection_id or redirect_id (either one suffices). -/
def itemUrlAmended (parseUrl : String → Option Url)
    (item : Option ImpactRecord) (baseUrl : Option String) : String :=
  match item with
  | none => "#"
  | some it =>
    if truthyStr baseUrl = false then "#"
    else
      match parseUrl (baseUrl.getD "") with
      | none => "#"
      | some url =>
        if truthyStr it.connection_id = false || truthyStr it.redirect_id = false then "#"
        else assetRouteTemplate it url.origin

/-- Base-URL parser fixture accepting exactly one well-formed base. -/
def parseUrlX : String → Option Url :=
  fun s => if s = "https://x" then some ⟨"https://x"⟩ else none

/-- Record with redirect_id but no connection_id, routing group pipeline. -/
def c4Item : ImpactRecord :=
  { name := some "n", connection_id := none, asset_name := some "a",
    asset_group := some "pipeline", redirect_id := some "42", is_transform := false }

/-- Counterexample to C4: a pipeline record that has redirect_id but lacks
only connection_id does not lack both ids, so the claim routes it to the
pipeline task template, but the source returns the placeholder. -/
theorem constructItemUrl_counterexample :
    constructItemUrl parseUrlX (some c4Item) (some "https://x") = "#" ∧
    itemUrlPerClaim parseUrlX (some c4Item) (some "https://x") =
      "https://x/observe/pipeline/task/42/run" ∧
    constructItemUrl parseUrlX (some c4Item) (some "https://x") ≠
      itemUrlPerClaim parseUrlX (some c4Item) (some "https://x") := by
  refine ⟨by decide, by decide, by decide⟩

/-- C4 amended: the asset-level resolver returns the placeholder when baseUrl
is absent, when URL construction throws, or when the record lacks
connection_id or redirect_id; otherwise it routes by asset_group per the
fixed template table, any other group yielding the placeholder. -/
theorem constructItemUrl_amended (parseUrl : String → Option Url)
    (item : Option ImpactRecord) (baseUrl : Option String) :
    constructItemUrl parseUrl item baseUrl = itemUrlAmended parseUrl item baseUrl := by
  cases item with
  | none => rfl
  | some it =>
    simp only [constructItemUrl, itemUrlAmended, assetRouteTemplate]

/-- Default of a falsy JS string expression (x || fallback). -/
def jsOrDefault (o : Option String) (d : String) : String :=
  match o with
  | none => d
  | some s => if s != "" then s else d

/-- Asset entry of the machine-readable mirror. -/
structure AssetImpactEntry where
  file_path : String
  model_name : Option String
  task_name : String
  redirect_url : String
deriving Repr, DecidableEq

/-- Column entry of the machine-readable mirror. -/
structure ColumnImpactEntry where
  file_path : String
  table_name : Option String
  column_name : Option String
  data_type : Option String
  task_name : String
  redirect_url : String
deriving Repr, DecidableEq

/-- Direct and indirect halves of a mirror section. -/
structure ImpactHalves (α : Type) where
  direct : List α
  indirect : List α
deriving Repr, DecidableEq

/-- Added and removed yml column names of the mirror. -/
structure YmlColumnChanges where
  added : List String
  removed : List String
deriving Repr, DecidableEq

/-- Metadata block of the mirror. -/
structure JsonMetadata where
  timestamp : String
  commit_sha : String
  pull_request_number : Option Int
  configurable_keys_used : List String
  dqlabs_base_url : String
  analysis_type : String
deriving Repr, DecidableEq

/-- Summary totals of the mirror. -/
structure JsonSummary where
  total_direct_assets : Nat
  total_indirect_assets : Nat
  total_direct_columns : Nat
  total_indirect_columns : Nat
  total_yml_added : Nat
  total_yml_removed : Nat
  total_changed_files : Nat
deriving Repr, DecidableEq

/-- The machine-readable mirror (the jsonData value before serialization). -/
structure ComprehensiveJson where
  metadata : JsonMetadata
  changed_files : List String
  asset_impacts : ImpactHalves AssetImpactEntry
  column_impacts : ImpactHalves ColumnImpactEntry
  yml_column_changes : YmlColumnChanges
  summary : JsonSummary
deriving Repr, DecidableEq

/-- Source lines 916-1007: generateComprehensiveJSON.  Builds the mirror from
the reconciled data; the configurable-keys string feeds only the metadata
block, and the summary totals are the lengths of the built sections. -/
def generateComprehensiveJSON (parseUrl : String → Option Url)
    (createlinkUrl rawKeys baseUrl timestamp commitSha : String)
    (prNumber : Option Int)
    (fileImpacts : List (String × FileImpactSet))
    (columnImpacts : List (String × ColumnImpactSet))
    (changedFiles : List String)
    (ymlAdded ymlRemoved : List ColRec) : ComprehensiveJson :=
  let assetDirect := fileImpacts.flatMap (fun p =>
    p.2.direct.map (fun model =>
      { file_path := p.1, model_name := model.name, task_name := p.2.taskName,
        redirect_url := constructItemUrl parseUrl (some model) (some createlinkUrl) }))
  let assetIndirect := fileImpacts.flatMap (fun p =>
    p.2.indirect.map (fun model =>
      { file_path := p.1, model_name := model.name, task_name := p.2.taskName,
        redirect_url := constructItemUrl parseUrl (some model) (some createlinkUrl) }))
  let columnDirect := columnImpacts.flatMap (fun p =>
    p.2.direct.map (fun column =>
      { file_path := p.1, table_name := column.table_name,
        column_name := column.column_name, data_type := column.data_type,
        task_name := p.2.taskName,
        redirect_url := constructColumnUrl parseUrl (some column) (some createlinkUrl) }))
  let columnIndirect := columnImpacts.flatMap (fun p =>
    p.2.indirect.map (fun column =>
      { file_path := p.1, table_name := column.table_name,
        column_name := column.column_name, data_type := column.data_type,
        task_name := p.2.taskName,
        redirect_url := constructColumnUrl parseUrl (some column) (some createlinkUrl) }))
  { metadata :=
      { timestamp := timestamp, commit_sha := commitSha,
        pull_request_number := prNumber,
        configurable_keys_used :=
          if rawKeys != "" then (jsSplitOn rawKeys ',').map jsTrim else [],
        dqlabs_base_url := baseUrl,
        analysis_type := "coalesce_yml_impact_analysis" },
    changed_files := changedFiles,
    asset_impacts := { direct := assetDirect, indirect := assetIndirect },
    column_impacts := { direct := columnDirect, indirect := columnIndirect },
    yml_column_changes :=
      { added := ymlAdded.map (fun c => c.name),
        removed := ymlRemoved.map (fun c => c.name) },
    summary :=
      { total_direct_assets := assetDirect.length,
        total_indirect_assets := assetIndirect.length,
        total_direct_columns := columnDirect.length,
        total_indirect_columns := columnIndirect.length,
        total_yml_added := ymlAdded.length,
        total_yml_removed := ymlRemoved.length,
        total_changed_files := changedFiles.length } }

/-- Markdown line for one directly or indirectly impacted asset
(source lines 746-754 and 767-775): hyperlink when connection_id is truthy
and the resolved URL is not the placeholder, plain text otherwise. -/
def assetListLine (parseUrl : String → Option Url) (createlinkUrl : String)
    (model : ImpactRecord) : String :=
  let url := constructItemUrl parseUrl (some model) (some createlinkUrl)
  let modelName := jsOrDefault model.name "Unknown"
  if truthyStr model.connection_id && url != "#" then
    "- [" ++ modelName ++ "](" ++ url ++ ")"
  else
    "- " ++ modelName

/-- Markdown line for one impacted column (source lines 811-819 and 832-840). -/
def columnListLine (parseUrl : String → Option Url) (createlinkUrl : String)
    (column : ColumnImpactRecord) : String :=
  let url := constructColumnUrl parseUrl (some column) (some createlinkUrl)
  let columnName :=
    jsOrDefault column.table_name "Unknown" ++ "." ++ jsOrDefault column.column_name "Unknown"
  let suffix := " - *" ++ jsOrDefault column.impact_type "Referenced" ++ "* (" ++
    jsOrDefault column.data_type "Unknown Type" ++ ")"
  if truthyStr column.connection_id && url != "#" then
    "- [" ++ columnName ++ "](" ++ url ++ ")" ++ suffix
  else
    "- " ++ columnName ++ suffix

/-- Collapsible details block titled with the entry count, empty when there
are no entries (source lines 757-761 etc.). -/
def detailsBlock (title : String) (entries : List String) : String :=
  if entries.length > 0 then
    "\n<details>\n<summary><b>" ++ title ++ " (" ++ toString entries.length ++
      ")</b></summary>\n\n" ++ String.intercalate "\n" entries ++ "\n" ++ "</details>\n"
  else ""

/-- Source lines 709-854: buildNewAnalysisReport.  Changed files, then the
asset section when any asset flag is on, then the column section when any
column flag is on; counts render before the collapsible lists. -/
def buildNewAnalysisReport (configurableKeys : OutputOptions)
    (parseUrl : String → Option Url) (createlinkUrl : String)
    (fileImpacts : List (String × FileImpactSet))
    (columnImpacts : List (String × ColumnImpactSet))
    (changedFiles : List String) : String :=
  let changedFilesSection :=
    "## Impact Analysis Report\n\n" ++ "### Changed Files\n" ++
    (if changedFiles.length > 0 then
      String.join (changedFiles.map (fun file => "- " ++ file ++ "\n"))
    else "- No files changed\n") ++ "\n"
  let hasAssetKeys := configurableKeys.showDirectAssetCount ||
    configurableKeys.showIndirectAssetCount ||
    configurableKeys.showDirectAssetList || configurableKeys.showIndirectAssetList
  let assetSection :=
    if hasAssetKeys then
      let totalDirectAssets := fileImpacts.foldl (fun sum p => sum + p.2.direct.length) 0
      let totalIndirectAssets := fileImpacts.foldl (fun sum p => sum + p.2.indirect.length) 0
      "### Asset level Impacts\n" ++
      (if configurableKeys.showDirectAssetCount then
        "- **Total Directly Impacted:** " ++ toString totalDirectAssets ++ "\n"
      else "") ++
      (if configurableKeys.showIndirectAssetCount then
        "- **Total Indirectly Impacted:** " ++ toString totalIndirectAssets ++ "\n"
      else "") ++
      (if configurableKeys.showDirectAssetList then
        detailsBlock "Directly Impacted Assets"
          (fileImpacts.flatMap (fun p =>
            p.2.direct.map (assetListLine parseUrl createlinkUrl)))
      else "") ++
      (if configurableKeys.showIndirectAssetList then
        detailsBlock "Indirectly Impacted Assets"
          (fileImpacts.flatMap (fun p =>
            p.2.indirect.map (assetListLine parseUrl createlinkUrl)))
      else "") ++ "\n"
    else ""
  let hasColumnKeys := configurableKeys.showDirectColumnCount ||
    configurableKeys.showIndirectColumnCount ||
    configurableKeys.showDirectColumnList || configurableKeys.showIndirectColumnList
  let columnSection :=
    if hasColumnKeys then
      let totalDirectColumns := columnImpacts.foldl (fun sum p => sum + p.2.direct.length) 0
      let totalIndirectColumns := columnImpacts.foldl (fun sum p => sum + p.2.indirect.length) 0
      "### Column level Impacts\n" ++
      (if configurableKeys.showDirectColumnCount then
        "- **Total Directly Impacted Columns:** " ++ toString totalDirectColumns ++ "\n"
      else "") ++
      (if configurableKeys.showIndirectColumnCount then
        "- **Total Indirectly Impacted Columns:** " ++ toString totalIndirectColumns ++ "\n"
      else "") ++
      (if configurableKeys.showDirectColumnList then
        detailsBlock "Directly Impacted Columns"
          (columnImpacts.flatMap (fun p =>
            p.2.direct.map (columnListLine parseUrl createlinkUrl)))
      else "") ++
      (if configurableKeys.showIndirectColumnList then
        detailsBlock "Indirectly Impacted Columns"
          (columnImpacts.flatMap (fun p =>
            p.2.indirect.map (columnListLine parseUrl createlinkUrl)))
      else "") ++ "\n"
    else ""
  changedFilesSection ++ assetSection ++ columnSection

/-- Source lines 909-913: the conditional YML Column Changes section appended
after buildNewAnalysisReport. -/
def ymlColumnChangesSection (configurableKeys : OutputOptions)
    (ymlAdded ymlRemoved : List ColRec) : String :=
  if configurableKeys.showYmlColumnChanges then
    "### YML Column Changes\n" ++
    "Added columns(" ++ toString ymlAdded.length ++ "): " ++
      String.intercalate ", " (ymlAdded.map (fun c => c.name)) ++ "\n" ++
    "Removed columns(" ++ toString ymlRemoved.length ++ "): " ++
      String.intercalate ", " (ymlRemoved.map (fun c => c.name)) ++ "\n\n"
  else ""

/-- Assembly done by run (lines 903-916 and 1010): derive the display options
from the configurable-keys input, build the Markdown summary under those
options, and build the machine-readable mirror from the same reconciled data. -/
def assembleOutputs (parseUrl : String → Option Url)
    (rawKeys createlinkUrl baseUrl timestamp commitSha : String)
    (prNumber : Option Int)
    (fileImpacts : List (String × FileImpactSet))
    (columnImpacts : List (String × ColumnImpactSet))
    (changedFiles : List String)
    (ymlAdded ymlRemoved : List ColRec) : String × ComprehensiveJson :=
  let configurableKeys := parseConfigurableKeys (some rawKeys)
  (buildNewAnalysisReport configurableKeys parseUrl createlinkUrl fileImpacts
      columnImpacts changedFiles ++
    ymlColumnChangesSection configurableKeys ymlAdded ymlRemoved,
   generateComprehensiveJSON parseUrl createlinkUrl rawKeys baseUrl timestamp
      commitSha prNumber fileImpacts columnImpacts changedFiles ymlAdded ymlRemoved)

/-- Concrete reconciled asset data for the C5 scenario. -/
def scnFileImpacts : List (String × FileImpactSet) :=
  [("m.yml", ⟨[sampleImpact "A" "1" "A"], [sampleImpact "B" "1" "B"], "m"⟩)]

/-- Concrete reconciled column data for the C5 scenario. -/
def scnColumnImpacts : List (String × ColumnImpactSet) :=
  [("m.yml", ⟨[collideColumn1], [], "m", ["b"]⟩)]

set_option maxRecDepth 100000 in
/-- C5: the machine-readable mirror is built from the reconciled data alone:
any two configurable-keys inputs yield identical asset_impacts,
column_impacts, yml_column_changes and summary sections; and in the scenario
with only the direct-asset flags enabled, the Markdown omits the column
section and the indirect lists while the mirror still carries the indirect
asset and the column data. -/
theorem json_mirror_unaffected_by_options :
    (∀ (parseUrl : String → Option Url)
       (rk1 rk2 createlinkUrl baseUrl timestamp commitSha : String)
       (prNumber : Option Int)
       (fileImpacts : List (String × FileImpactSet))
       (columnImpacts : List (String × ColumnImpactSet))
       (changedFiles : List String)
       (ymlAdded ymlRemoved : List ColRec),
      (assembleOutputs parseUrl rk1 createlinkUrl baseUrl timestamp commitSha
          prNumber fileImpacts columnImpacts changedFiles ymlAdded ymlRemoved).2.asset_impacts =
        (assembleOutputs parseUrl rk2 createlinkUrl baseUrl timestamp commitSha
          prNumber fileImpacts columnImpacts changedFiles ymlAdded ymlRemoved).2.asset_impacts ∧
      (assembleOutputs parseUrl rk1 createlinkUrl baseUrl timestamp commitSha
          prNumber fileImpacts columnImpacts changedFiles ymlAdded ymlRemoved).2.column_impacts =
        (assembleOutputs parseUrl rk2 createlinkUrl baseUrl timestamp commitSha
          prNumber fileImpacts columnImpacts changedFiles ymlAdded ymlRemoved).2.column_impacts ∧
      (assembleOutputs parseUrl rk1 createlinkUrl baseUrl timestamp commitSha
          prNumber fileImpacts columnImpacts changedFiles ymlAdded ymlRemoved).2.yml_column_changes =
        (assembleOutputs parseUrl rk2 createlinkUrl baseUrl timestamp commitSha
          prNumber fileImpacts columnImpacts changedFiles ymlAdded ymlRemoved).2.yml_column_changes ∧
      (assembleOutputs parseUrl rk1 createlinkUrl baseUrl timestamp commitSha
          prNumber fileImpacts columnImpacts changedFiles ymlAdded ymlRemoved).2.summary =
        (assembleOutputs parseUrl rk2 createlinkUrl baseUrl timestamp commitSha
          prNumber fileImpacts columnImpacts changedFiles ymlAdded ymlRemoved).2.summary) ∧
    (jsIncludes (assembleOutputs parseUrlX "direct_asset_count,direct_asset_list"
        "https://x" "https://x" "ts" "sha" none scnFileImpacts scnColumnImpacts
        ["m.yml"] [] []).1 "### Column level Impacts" = false ∧
     jsIncludes (assembleOutputs parseUrlX "direct_asset_count,direct_asset_list"
        "https://x" "https://x" "ts" "sha" none scnFileImpacts scnColumnImpacts
        ["m.yml"] [] []).1 "Indirectly Impacted" = false ∧
     jsIncludes (assembleOutputs parseUrlX "direct_asset_count,direct_asset_list"
        "https://x" "https://x" "ts" "sha" none scnFileImpacts scnColumnImpacts
        ["m.yml"] [] []).1 "Directly Impacted Assets" = true ∧
     (assembleOutputs parseUrlX "direct_asset_count,direct_asset_list"
        "https://x" "https://x" "ts" "sha" none scnFileImpacts scnColumnImpacts
        ["m.yml"] [] []).2.asset_impacts.indirect ≠ [] ∧
     (assembleOutputs parseUrlX "direct_asset_count,direct_asset_list"
        "https://x" "https://x" "ts" "sha" none scnFileImpacts scnColumnImpacts
        ["m.yml"] [] []).2.column_impacts.direct ≠ []) := by
  constructor
  · intro parseUrl rk1 rk2 createlinkUrl baseUrl timestamp commitSha prNumber
      fileImpacts columnImpacts changedFiles ymlAdded ymlRemoved
    exact ⟨rfl, rfl, rfl, rfl⟩
  · refine ⟨by decide, by decide, by decide, by decide, by decide⟩

/-- Model of a parsed JS/YAML value as produced by yaml.load: null or
undefined, booleans, numbers, strings, arrays and objects. -/
inductive YVal where
  | nullv
  | boolv (b : Bool)
  | numv (n : Int)
  | strv (s : String)
  | arrv (xs : List YVal)
  | objv (fields : List (String × YVal))
deriving Repr

/-- JS truthiness of a parsed value: null/undefined, false, 0 and the empty
string are falsy; arrays and objects are always truthy. -/
def truthyY : YVal → Bool
  | .nullv => false
  | .boolv b => b
  | .numv n => n != 0
  | .strv s => s != ""
  | .arrv _ => true
  | .objv _ => true

/-- JS property access: a missing property, or access on a non-object,
yields undefined (modelled by nullv). -/
def getProp (v : YVal) (k : String) : YVal :=
  match v with
  | .objv fields =>
    match fields.find? (fun p => p.1 == k) with
    | some p => p.2
    | none => .nullv
  | _ => .nullv

/-- JS a || b on parsed values. -/
def jsOrY (a b : YVal) : YVal := if truthyY a then a else b

/-- Column record built by extractColumnsFromYML; the fallback branch leaves
dataType, nullable and primaryKey undefined. -/
structure YColumn where
  name : YVal
  dataType : YVal
  nullable : YVal
  primaryKey : YVal
deriving Repr

/-- yml-parser.js lines 14-18: column record of the Coalesce node branch. -/
def mkCoalesceColumn (col : YVal) : YColumn :=
  { name := jsOrY (getProp col "name") (.strv ""),
    dataType := jsOrY (getProp col "dataType") (.strv ""),
    nullable := jsOrY (getProp col "nullable") (.boolv false),
    primaryKey := jsOrY (getProp col "primaryKey") (.boolv false) }

/-- yml-parser.js lines 24-26: column record of the fallback columns branch;
a non-string entry without a truthy name keeps the entry itself as its name. -/
def mkFallbackColumn (col : YVal) : YColumn :=
  match col with
  | .strv s => { name := .strv s, dataType := .nullv, nullable := .nullv, primaryKey := .nullv }
  | _ => { name := jsOrY (getProp col "name") col,
           dataType := .nullv, nullable := .nullv, primaryKey := .nullv }

/-- yml-parser.js lines 9-29: body of extractColumnsFromYML after parsing.
A falsy document yields no columns; the Coalesce branch maps and filters
operation.metadata.columns; the fallback branch maps and filters
schema.columns; mapping over a truthy non-array throws (error). -/
def extractColumnsBody (schema : YVal) : Except Unit (List YColumn) :=
  if truthyY schema = false then .ok []
  else if truthyY (getProp schema "operation") &&
      truthyY (getProp (getProp schema "operation") "metadata") &&
      truthyY (getProp (getProp (getProp schema "operation") "metadata") "columns") then
    match getProp (getProp (getProp schema "operation") "metadata") "columns" with
    | .arrv xs => .ok ((xs.map mkCoalesceColumn).filter (fun c => truthyY c.name))
    | _ => .error ()
  else if truthyY (getProp schema "columns") then
    match getProp schema "columns" with
    | .arrv xs => .ok ((xs.map mkFallbackColumn).filter (fun c => truthyY c.name))
    | _ => .error ()
  else .ok []

/-- yml-parser.js lines 7-34: extractColumnsFromYML.  The parse (yaml.load)
is a parameter; any thrown error, from parsing or from the body, is caught
and yields the empty list. -/
def extractColumnsFromYML (parse : String → Except Unit YVal)
    (content filePath : String) : List YColumn :=
  match parse content with
  | .error _ => []
  | .ok schema =>
    match extractColumnsBody schema with
    | .ok cols => cols
    | .error _ => []

/-- Counterexample to C10: a fallback columns list containing the entry
that is an empty object: the entry lacks a name (its name property is
falsy), yet it is kept in the result with the entry itself as its name. -/
theorem extractColumnsFromYML_counterexample :
    extractColumnsFromYML
        (fun _ => .ok (.objv [("columns", .arrv [.objv []])])) "content" "f.yml" =
      [{ name := .objv [], dataType := .nullv, nullable := .nullv, primaryKey := .nullv }] ∧
    truthyY (getProp (.objv []) "name") = false :=
  ⟨rfl, rfl⟩

theorem mem_extractColumnsBody {schema : YVal} {cols : List YColumn}
    (h : extractColumnsBody schema = .ok cols) :
    ∀ c ∈ cols, truthyY c.name = true := by
  intro c hc
  unfold extractColumnsBody at h
  split_ifs at h with h1 h2 h3
  · injection h with h
    subst h
    simp at hc
  · split at h
    · injection h with h
      subst h
      exact (List.mem_filter.mp hc).2
    · exact absurd h (by simp)
  · split at h
    · injection h with h
      subst h
      exact (List.mem_filter.mp hc).2
    · exact absurd h (by simp)
  · injection h with h
    subst h
    simp at hc

/-- C10 amended: extractColumnsFromYML is total with every failure degraded
to the empty list: parse errors, falsy documents and schemas without a
recognized columns section all yield the empty list; every returned column
has a truthy name, and in the Coalesce branch an entry with a falsy name
property is always filtered out.  In the fallback branch a truthy non-string
entry lacking a name survives with the entry itself stored as its name
(see the counterexample). -/
theorem extractColumnsFromYML_amended :
    (∀ (parse : String → Except Unit YVal) (content filePath : String)
       (col : YColumn),
      col ∈ extractColumnsFromYML parse content filePath →
      truthyY col.name = true) ∧
    (∀ content filePath : String,
      extractColumnsFromYML (fun _ => .error ()) content filePath = []) ∧
    (∀ (schema : YVal) (content filePath : String), truthyY schema = false →
      extractColumnsFromYML (fun _ => .ok schema) content filePath = []) ∧
    (∀ (schema : YVal) (content filePath : String),
      (truthyY (getProp schema "operation") &&
        truthyY (getProp (getProp schema "operation") "metadata") &&
        truthyY (getProp (getProp (getProp schema "operation") "metadata") "columns")) = false →
      truthyY (getProp schema "columns") = false →
      extractColumnsFromYML (fun _ => .ok schema) content filePath = []) ∧
    (∀ col : YVal, truthyY (getProp col "name") = false →
      truthyY (mkCoalesceColumn col).name = false) := by
  refine ⟨?_, ?_, ?_, ?_, ?_⟩
  · intro parse content filePath col hcol
    unfold extractColumnsFromYML at hcol
    cases hp : parse content with
    | error e => rw [hp] at hcol; simp at hcol
    | ok schema =>
      rw [hp] at hcol
      dsimp only at hcol
      cases hb : extractColumnsBody schema with
      | error e => rw [hb] at hcol; simp at hcol
      | ok cols =>
        rw [hb] at hcol
        dsimp only at hcol
        exact mem_extractColumnsBody hb col hcol
  · intro content filePath
    rfl
  · intro schema content filePath hfalsy
    simp [extractColumnsFromYML, extractColumnsBody, hfalsy]
  · intro schema content filePath hop hsc
    by_cases ht : truthyY schema = false
    · simp [extractColumnsFromYML, extractColumnsBody, ht]
    · simp [extractColumnsFromYML, extractColumnsBody, ht, hop, hsc]
  · intro col hname
    simp only [mkCoalesceColumn, jsOrY, hname]
    rfl

/-- Witness for the amended C10 theorem: a Coalesce document whose single
column is named id yields that column with a truthy name, and a falsy parsed
document yields no columns. -/
theorem extractColumnsFromYML_amended_witness :
    truthyY (YColumn.name
      { name := .strv "id", dataType := .strv "", nullable := .boolv false,
        primaryKey := .boolv false }) = true ∧
    extractColumnsFromYML (fun _ => .ok .nullv) "content" "f.yml" = [] := by
  constructor
  · refine extractColumnsFromYML_amended.1
      (fun _ => .ok (.objv [("operation", .objv [("metadata", .objv [("columns",
        .arrv [.objv [("name", .strv "id")]])])])])) "content" "f.yml" _ ?_
    rw [show extractColumnsFromYML
      (fun _ => .ok (.objv [("operation", .objv [("metadata", .objv [("columns",
        .arrv [.objv [("name", .strv "id")]])])])])) "content" "f.yml" =
      [{ name := .strv "id", dataType := .strv "", nullable := .boolv false,
         primaryKey := .boolv false }] from rfl]
    exact List.mem_singleton_self _
  · exact extractColumnsFromYML_amended.2.2.1 .nullv "content" "f.yml" rfl
